import Mathlib

/-!
Verification of the OnlyKey host-side HID client (onlykey/client.py).

The definitions below are a shallow embedding of the message framing,
chunked sending, response reassembly, challenge derivation, connection
retry and slot lookup logic of the source file.  Bytes are modelled as
natural numbers, byte strings as lists of naturals, fallible Python code
as Except values, and the HID transport as explicit data (a list of the
values successive reads return, or a function from attempt number to the
outcome of device enumeration).
-/

namespace OnlyKeyClient

/-- Platform specific framing: the constant MESSAGE_HEADER and the fixed
report size MAX_INPUT_REPORT_SIZE from the top of client.py. -/
structure Platform where
  header : List Nat
  reportSize : Nat

/-- The branch for os.name different from nt: header [255,255,255,255],
report size 64. -/
def posixPlatform : Platform := ⟨[255, 255, 255, 255], 64⟩

/-- The branch for os.name equal to nt: header [0,255,255,255,255],
report size 65. -/
def windowsPlatform : Platform := ⟨[0, 255, 255, 255, 255], 65⟩

/-- MAX_LARGE_PAYLOAD_SIZE = 58 from client.py. -/
def MAX_LARGE_PAYLOAD_SIZE : Nat := 58

/-- The shapes a payload argument of send_message can take.  pyNone models
the default argument None; the other constructors model the isinstance
branches of send_message. -/
inductive PyPayload where
  | pyNone
  | pyBytes (b : List Nat)
  | pyStr (s : String)
  | pyList (l : List Nat)
  | pyInt (n : Nat)
deriving DecidableEq

/-- Python truthiness of the payload argument, as tested by the
if payload: guard in send_message. -/
def pyTruthy : PyPayload → Bool
  | .pyNone => false
  | .pyBytes b => !b.isEmpty
  | .pyStr s => !s.isEmpty
  | .pyList l => !l.isEmpty
  | .pyInt n => n != 0

/-- payload.encode utf-8 for the str branch of send_message. -/
def utf8Bytes (s : String) : List Nat := s.toUTF8.toList.map (fun b => b.toNat)

/-- The byte sequence a truthy payload contributes to the report, one case
per isinstance branch of send_message.  The bytes constructor of Python
raises ValueError on an integer outside 0..255, and the final else branch
of send_message raises on unsupported types (modelled by pyNone falling
through to the error case, which is unreachable because pyNone is falsy). -/
def payloadBytes : PyPayload → Except String (List Nat)
  | .pyBytes b => Except.ok b
  | .pyStr s => Except.ok (utf8Bytes s)
  | .pyList l => if ∀ c ∈ l, c < 256 then Except.ok l else Except.error "ValueError"
  | .pyInt n => if n < 256 then Except.ok [n] else Except.error "ValueError"
  | .pyNone => Except.error "payload must be either str or list"

/-- Bytes contributed by the msg argument: a Message enum member is always
truthy, None contributes nothing. -/
def optTag : Option Nat → List Nat
  | some v => [v]
  | none => []

/-- Bytes contributed by the slot_id argument.  The guard if slot_id: in
send_message makes the integer 0 behave exactly like None. -/
def slotTag : Option Nat → List Nat
  | some s => if s ≠ 0 then [s] else []
  | none => []

/-- The while-loop at the end of send_message: append zero bytes until the
report reaches the fixed size. -/
def padTo (l : List Nat) (size : Nat) : List Nat := l ++ List.replicate (size - l.length) 0

/-- The unpadded concatenation built by send_message: header, message tag,
slot id, field tag, payload bytes. -/
def reportContent (plat : Platform) (msg slot_id message_field : Option Nat)
    (pb : List Nat) : List Nat :=
  plat.header ++ optTag msg ++ slotTag slot_id ++ optTag message_field ++ pb

/-- OnlyKey.send_message from client.py, up to but excluding the final
hid write: build the report from header, optional message tag, optional
slot id, optional message field and payload, then zero-pad to the fixed
report size. -/
def send_message (plat : Platform) (msg slot_id message_field : Option Nat)
    (payload : PyPayload) : Except String (List Nat) :=
  match (if pyTruthy payload then payloadBytes payload else Except.ok []) with
  | .error e => .error e
  | .ok pb => .ok (padTo (reportContent plat msg slot_id message_field pb) plat.reportSize)

/-- range(0, stop, step) for a positive step, as used by the chunk list
comprehensions in send_large_message and send_large_message2. -/
def pyRangeStep (stop step : Nat) : List Nat :=
  List.range' 0 ((stop + step - 1) / step) step

/-- The chunk list of send_large_message:
payload[x : x + MAX_LARGE_PAYLOAD_SIZE] for x in range(0, len(payload), 58). -/
def chunksLarge (p : List Nat) : List (List Nat) :=
  (pyRangeStep p.length 58).map (fun x => (p.drop x).take MAX_LARGE_PAYLOAD_SIZE)

/-- The marker byte send_large_message puts before a chunk: 255 unless the
chunk holds fewer than 58 bytes, in which case the literal length. -/
def largeMarker (chunk : List Nat) : Nat :=
  if chunk.length < 58 then chunk.length else 255

/-- The per-chunk message payloads emitted by send_large_message, in
emission order: marker byte followed by the chunk data. -/
def send_large_message_payloads (p : List Nat) : List (List Nat) :=
  (chunksLarge p).map (fun c => largeMarker c :: c)

/-- OnlyKey.send_large_message: raises Missing msg when no message tag is
given, otherwise emits one send_message call per chunk. -/
def send_large_message (msg : Option Nat) (p : List Nat) :
    Except String (List (List Nat)) :=
  match msg with
  | none => Except.error "Missing msg"
  | some _ => Except.ok (send_large_message_payloads p)

/-- The chunk list of send_large_message2:
payload[x : x + MAX_LARGE_PAYLOAD_SIZE - 1] for x in range(0, len(payload), 57). -/
def chunksLarge2 (p : List Nat) : List (List Nat) :=
  (pyRangeStep p.length 57).map (fun x => (p.drop x).take (MAX_LARGE_PAYLOAD_SIZE - 1))

/-- The marker byte send_large_message2 puts after the slot id: 255 unless
the chunk holds fewer than 57 bytes, in which case the literal length. -/
def largeMarker2 (chunk : List Nat) : Nat :=
  if chunk.length < 57 then chunk.length else 255

/-- The per-chunk message payloads emitted by send_large_message2, in
emission order: slot id, marker byte, then the chunk data. -/
def send_large_message2_payloads (slot_id : Nat) (p : List Nat) : List (List Nat) :=
  (chunksLarge2 p).map (fun c => slot_id :: largeMarker2 c :: c)

/-- OnlyKey.send_large_message2: raises Missing msg when no message tag is
given, otherwise emits one send_message call per chunk. -/
def send_large_message2 (msg : Option Nat) (slot_id : Nat) (p : List Nat) :
    Except String (List (List Nat)) :=
  match msg with
  | none => Except.error "Missing msg"
  | some _ => Except.ok (send_large_message2_payloads slot_id p)

/-- Recursive presentation of greedy chunking with width w + 1, used to
reason about the slice comprehensions above by induction. -/
def chunkRec (w : Nat) : List Nat → List (List Nat)
  | [] => []
  | a :: t => ((a :: t).take (w + 1)) :: chunkRec w (t.drop w)
termination_by l => l.length
decreasing_by
  simp only [List.length_drop, List.length_cons]
  omega

/-- The initial polling loop of sign, getpub and decrypt: read repeatedly
until a non-empty report arrives.  The transport is modelled as the list
of values successive reads return; reads past the end of the list would
keep the Python loop spinning forever, modelled by the value none. -/
def readFirst : List (List Nat) → Option (List Nat × List (List Nat))
  | [] => none
  | r :: rest => if r = [] then readFirst rest else some (r, rest)

/-- One for-loop of sign reading a later signature part: up to fuel reads
(10 in the source), keeping the value of the last read performed, breaking
early only when the length test fires.  The source compares the length of
the hex string of the read, so the break condition is
2 * (raw byte count) = 64, that is a 32-byte read.  Reads past the end of
the trace return the empty report, like a non-blocking read on a silent
device. -/
def readSeg : Nat → List (List Nat) → List Nat × List (List Nat)
  | 0, tr => ([], tr)
  | fuel + 1, tr =>
    let r := tr.headD []
    if 2 * r.length = 64 ∨ fuel = 0 then (r, tr.tail)
    else readSeg fuel tr.tail

/-- The read-and-reassemble phase of OnlyKey.sign, after the payload has
been sent and the user has confirmed: the first part is polled until
non-empty, parts 2 to 8 each come from a 10-read retry loop, the eight
parts are concatenated in read order, and the whole call raises exactly
when part 2 ends up empty.  Concatenating the hex strings of the source
corresponds to concatenating the raw byte lists here.  The value none
models the unbounded first loop never terminating. -/
def sign_read (tr : List (List Nat)) : Option (Except String (List Nat)) :=
  match readFirst tr with
  | none => none
  | some (s1, tr1) =>
    let (s2, tr2) := readSeg 10 tr1
    let (s3, tr3) := readSeg 10 tr2
    let (s4, tr4) := readSeg 10 tr3
    let (s5, tr5) := readSeg 10 tr4
    let (s6, tr6) := readSeg 10 tr5
    let (s7, tr7) := readSeg 10 tr6
    let (s8, _) := readSeg 10 tr7
    some (if s2 = [] then Except.error "failed to read signature from OnlyKey"
          else Except.ok (s1 ++ s2 ++ s3 ++ s4 ++ s5 ++ s6 ++ s7 ++ s8))

/-- The read phase of OnlyKey.decrypt: a single polling loop that returns
the first non-empty read; no further parts are read and no read failure
can be raised. -/
def decrypt_read (tr : List (List Nat)) : Option (Except String (List Nat)) :=
  match readFirst tr with
  | none => none
  | some (s1, _) => some (Except.ok s1)

/-- A Python scalar as passed to ord: either an int, as produced by
indexing a bytes object in Python 3, or a one-character string. -/
inductive PyVal where
  | pyInt (n : Nat)
  | pyChar (c : Char)
deriving DecidableEq

/-- The builtin ord: defined on a one-character string, a TypeError on an
int. -/
def py_ord : PyVal → Except String Nat
  | .pyChar c => Except.ok c.toNat
  | .pyInt _ => Except.error "TypeError: ord() expected string of length 1, but int found"

/-- get_button from sign and decrypt: ibyte = ord(byte); 1 when ibyte < 6,
otherwise ibyte mod 5 + 1. -/
def get_button (byte : PyVal) : Except String Nat :=
  match py_ord byte with
  | .error e => .error e
  | .ok ibyte => .ok (if ibyte < 6 then 1 else ibyte % 5 + 1)

/-- The challenge derivation of sign and decrypt applied to the 32-byte
SHA-256 digest d: get_button(d[0]), get_button(d[15]), get_button(d[31]).
Indexing a Python 3 bytes object yields an int, hence the pyInt wrappers. -/
def derive_buttons (d : List Nat) : Except String (Nat × Nat × Nat) :=
  match get_button (.pyInt (d.getD 0 0)), get_button (.pyInt (d.getD 15 0)),
        get_button (.pyInt (d.getD 31 0)) with
  | .ok b1, .ok b2, .ok b3 => .ok (b1, b2, b3)
  | .error e, _, _ => .error e
  | _, .error e, _ => .error e
  | _, _, .error e => .error e

/-- One entry of the list hid.enumerate returns, with the fields _connect
reads. -/
structure DeviceInfo where
  vendor_id : Nat
  product_id : Nat
  serial_number : String
  interface_number : Int
  usage_page : Nat
deriving DecidableEq

/-- DEVICE_IDS from client.py. -/
def DEVICE_IDS : List (Nat × Nat) := [(0x16C0, 0x0486), (0x1d50, 0x60fc)]

/-- The body of the enumeration loop in _connect: a matching entry opens
the device, overwriting any handle a previous iteration opened; a
non-matching entry leaves the state unchanged. -/
def matchStep (acc : Option DeviceInfo) (d : DeviceInfo) : Option DeviceInfo :=
  if (d.vendor_id, d.product_id) ∈ DEVICE_IDS then
    if d.serial_number = "1000000000" then
      if d.usage_page = 0xffab ∨ d.interface_number = 2 then some d else acc
    else
      if d.usage_page = 0xf1d0 ∨ d.interface_number = 1 then some d else acc
  else acc

/-- OnlyKey._connect for one attempt.  The environment is the outcome of
hid.enumerate and the subsequent opens: an exception anywhere in the try
block is caught and re-raised as OnlyKeyUnavailableException; otherwise
the loop scans every enumerated device and _connect returns normally,
whether or not any device matched and a handle was opened. -/
def connectOnce (env : Except Unit (List DeviceInfo)) : Except String (Option DeviceInfo) :=
  match env with
  | .error _ => .error "OnlyKeyUnavailableException"
  | .ok devs => .ok (devs.foldl matchStep none)

/-- Observable outcome of OnlyKey.__init__: the result (the opened handle
on success, the re-raised exception text on failure), the number of
_connect attempts made, and the number of 1.5 second sleeps performed. -/
structure InitTrace where
  result : Except String (Option DeviceInfo)
  attempts : Nat
  sleeps : Nat

/-- The retry loop of OnlyKey.__init__: tries counts down from 5; a
successful _connect returns at once; a failing one sleeps 1.5 seconds and
decrements; when tries reaches 0 the statement raise e runs after the
while loop, but Python 3 deletes the except-clause variable e at the end
of each except block, so this final raise does not re-raise the caught
OnlyKeyUnavailableException: it raises UnboundLocalError. -/
def okInitGo (env : Nat → Except Unit (List DeviceInfo)) : Nat → Nat → InitTrace
  | 0, k => ⟨.error "UnboundLocalError", k, k⟩
  | n + 1, k =>
    match connectOnce (env k) with
    | .ok h => ⟨.ok h, k + 1, k⟩
    | .error _ => okInitGo env n (k + 1)

/-- OnlyKey.__init__ with connect=True: five tries against the per-attempt
enumeration outcomes env. -/
def okInit (env : Nat → Except Unit (List DeviceInfo)) : InitTrace :=
  okInitGo env 5 0

/-- The SLOTS_NAME table from client.py, keys 1 to 12 and 25 to 60. -/
def SLOTS_NAME : List (Nat × String) :=
  [(1, "1a"), (2, "2a"), (3, "3a"), (4, "4a"), (5, "5a"), (6, "6a"),
   (7, "1b"), (8, "2b"), (9, "3b"), (10, "4b"), (11, "5b"), (12, "6b"),
   (25, "RSA Key 1"), (26, "RSA Key 2"), (27, "RSA Key 3"), (28, "RSA Key 4"),
   (29, "ECC Key 1"), (30, "ECC Key 2"), (31, "ECC Key 3"), (32, "ECC Key 4"),
   (33, "ECC Key 5"), (34, "ECC Key 6"), (35, "ECC Key 7"), (36, "ECC Key 8"),
   (37, "ECC Key 9"), (38, "ECC Key 10"), (39, "ECC Key 11"), (40, "ECC Key 12"),
   (41, "ECC Key 13"), (42, "ECC Key 14"), (43, "ECC Key 15"), (44, "ECC Key 16"),
   (45, "ECC Key 17"), (46, "ECC Key 18"), (47, "ECC Key 19"), (48, "ECC Key 20"),
   (49, "ECC Key 21"), (50, "ECC Key 22"), (51, "ECC Key 23"), (52, "ECC Key 24"),
   (53, "ECC Key 25"), (54, "ECC Key 26"), (55, "ECC Key 27"), (56, "ECC Key 28"),
   (57, "ECC Key 29"), (58, "ECC Key 30"), (59, "ECC Key 31"), (60, "ECC Key 32")]

/-- Dictionary lookup SLOTS_NAME[num]. -/
def slotName (num : Nat) : Option String :=
  (SLOTS_NAME.find? (fun kv => kv.1 == num)).map (fun kv => kv.2)

/-- The Slot object of client.py: number, label and looked-up name. -/
structure Slot where
  number : Nat
  label : String
  name : String
deriving DecidableEq

/-- Slot.__init__: an unguarded dictionary lookup, so a number absent from
SLOTS_NAME raises the bare Python KeyError. -/
def slotNew (num : Nat) (label : String) : Except String Slot :=
  match slotName num with
  | some n => Except.ok ⟨num, label, n⟩
  | none => Except.error "KeyError"

/-! ## Helper lemmas about chunking -/

/-- Mapping over an arithmetic progression of slice offsets starting at s
is mapping over the progression starting at 0 applied after dropping s. -/
theorem map_range_slices (w : Nat) :
    ∀ (n s : Nat) (p : List Nat),
      (List.range' s n (w + 1)).map (fun x => (p.drop x).take (w + 1)) =
        (List.range' 0 n (w + 1)).map (fun x => ((p.drop s).drop x).take (w + 1)) := by
  intro n
  induction n with
  | zero => intro s p; rfl
  | succ m ih =>
    intro s p
    rw [List.range'_succ, List.range'_succ]
    simp only [List.map_cons, List.drop_zero, Nat.zero_add]
    rw [ih (s + (w + 1)) p, ih (w + 1) (p.drop s)]
    simp only [List.drop_drop]

/-- One step of the ceiling-division chunk count. -/
theorem chunk_count_step (w n : Nat) (hn : 0 < n) :
    (n + w) / (w + 1) = ((n - (w + 1)) + w) / (w + 1) + 1 := by
  rcases le_or_lt (w + 1) n with h | h
  · have e : n + w = ((n - (w + 1)) + w) + (w + 1) := by omega
    rw [e, Nat.add_div_right _ (Nat.succ_pos w)]
  · have h1 : (n + w) / (w + 1) = 1 := Nat.div_eq_of_lt_le (by omega) (by omega)
    have h2 : w / (w + 1) = 0 := Nat.div_eq_of_lt (by omega)
    have e : n - (w + 1) = 0 := by omega
    rw [e, Nat.zero_add, h2, h1]

/-- The slice comprehension of the source equals the recursive chunking. -/
theorem slices_eq_chunkRec (w : Nat) (p : List Nat) :
    (List.range' 0 ((p.length + w) / (w + 1)) (w + 1)).map
        (fun x => (p.drop x).take (w + 1)) = chunkRec w p := by
  induction p using chunkRec.induct w with
  | case1 =>
    have h0 : w / (w + 1) = 0 := Nat.div_eq_of_lt (by omega)
    simp [chunkRec, h0]
  | case2 a t ih =>
    rw [List.length_drop] at ih
    have hstep := chunk_count_step w (t.length + 1) (Nat.succ_pos _)
    have e1 : t.length + 1 - (w + 1) = t.length - w := by omega
    rw [e1] at hstep
    rw [chunkRec]
    rw [List.length_cons, hstep, List.range'_succ]
    simp only [List.map_cons, List.drop_zero, Nat.zero_add]
    rw [map_range_slices w _ (w + 1) (a :: t)]
    simp only [List.drop_succ_cons]
    rw [ih]

/-- Concatenating the chunks gives back the payload. -/
theorem chunkRec_join (w : Nat) (p : List Nat) : (chunkRec w p).flatten = p := by
  induction p using chunkRec.induct w with
  | case1 => simp [chunkRec]
  | case2 a t ih =>
    rw [chunkRec]
    simp only [List.flatten_cons, ih]
    have h := List.take_append_drop (w + 1) (a :: t)
    simp only [List.drop_succ_cons] at h
    exact h

/-- The number of chunks is the ceiling of length over width. -/
theorem chunkRec_length (w : Nat) (p : List Nat) :
    (chunkRec w p).length = (p.length + w) / (w + 1) := by
  induction p using chunkRec.induct w with
  | case1 =>
    have h0 : w / (w + 1) = 0 := Nat.div_eq_of_lt (by omega)
    simp [chunkRec, h0]
  | case2 a t ih =>
    rw [chunkRec]
    simp only [List.length_cons, ih, List.length_drop]
    have hstep := chunk_count_step w (t.length + 1) (Nat.succ_pos _)
    have e1 : t.length + 1 - (w + 1) = t.length - w := by omega
    rw [e1] at hstep
    exact hstep.symm

/-- Every chunk is non-empty and at most the width. -/
theorem chunkRec_mem_len (w : Nat) (p : List Nat) :
    ∀ c ∈ chunkRec w p, 0 < c.length ∧ c.length ≤ w + 1 := by
  induction p using chunkRec.induct w with
  | case1 => simp [chunkRec]
  | case2 a t ih =>
    rw [chunkRec]
    intro c hc
    rcases List.mem_cons.mp hc with h | h
    · subst h
      simp only [List.length_take, List.length_cons]
      constructor <;> omega
    · exact ih c h

/-- A non-empty payload yields at least one chunk. -/
theorem chunkRec_ne_nil (w : Nat) (p : List Nat) (hp : p ≠ []) : chunkRec w p ≠ [] := by
  cases p with
  | nil => exact absurd rfl hp
  | cons a t => rw [chunkRec]; exact List.cons_ne_nil _ _

/-- Every chunk except the last is full width. -/
theorem chunkRec_dropLast_len (w : Nat) (p : List Nat) :
    ∀ c ∈ (chunkRec w p).dropLast, c.length = w + 1 := by
  induction p using chunkRec.induct w with
  | case1 => simp [chunkRec]
  | case2 a t ih =>
    rw [chunkRec]
    by_cases hrest : chunkRec w (t.drop w) = []
    · rw [hrest]; simp
    · rw [List.dropLast_cons_of_ne_nil hrest]
      intro c hc
      rcases List.mem_cons.mp hc with h | h
      · subst h
        have hne : t.drop w ≠ [] := by
          intro hnil
          exact hrest (by rw [hnil]; simp [chunkRec])
        have h0 : 0 < (t.drop w).length := List.length_pos.mpr hne
        rw [List.length_drop] at h0
        simp only [List.length_take, List.length_cons]
        omega
      · exact ih c h

/-- dropLast commutes with map. -/
theorem dropLast_map_comm (f : List Nat → Nat) :
    ∀ l : List (List Nat), (l.map f).dropLast = l.dropLast.map f
  | [] => rfl
  | [_] => rfl
  | a :: b :: t => by
    simp only [List.map_cons]
    rw [List.dropLast_cons_of_ne_nil (List.cons_ne_nil _ _),
        List.dropLast_cons_of_ne_nil (List.cons_ne_nil _ _)]
    simp only [List.map_cons]
    rw [← List.map_cons f b t, dropLast_map_comm f (b :: t)]

/-- The last element of a list is a member. -/
theorem mem_of_getLastEq {α : Type} {a : α} :
    ∀ {l : List α}, l.getLast? = some a → a ∈ l := by
  intro l
  induction l with
  | nil => intro h; simp at h
  | cons x xs ih =>
    cases xs with
    | nil =>
      intro h
      simp [List.getLast?] at h
      simp [h]
    | cons y ys =>
      intro h
      rw [List.getLast?_cons_cons] at h
      exact List.mem_cons_of_mem x (ih h)

/-- The chunk list of send_large_message is greedy chunking of width 58. -/
theorem chunksLarge_eq (p : List Nat) : chunksLarge p = chunkRec 57 p := by
  have h := slices_eq_chunkRec 57 p
  have e : p.length + 58 - 1 = p.length + 57 := by omega
  simpa [chunksLarge, pyRangeStep, MAX_LARGE_PAYLOAD_SIZE, e] using h

/-- The chunk list of send_large_message2 is greedy chunking of width 57. -/
theorem chunksLarge2_eq (p : List Nat) : chunksLarge2 p = chunkRec 56 p := by
  have h := slices_eq_chunkRec 56 p
  have e : p.length + 57 - 1 = p.length + 56 := by omega
  simpa [chunksLarge2, pyRangeStep, MAX_LARGE_PAYLOAD_SIZE, e] using h

/-! ## Claim theorems -/

/-- Claim C1, counterexample: for send_large_message and the 58-byte
payload of sevens, the single chunk is also the last chunk and is emitted
with marker byte 255, not with a marker equal to its literal data length
58, contradicting the claim that the last chunk always carries its
literal length. -/
theorem large_message_marker_cex :
    (chunksLarge (List.replicate 58 7)).map largeMarker = [255]
  ∧ (chunksLarge (List.replicate 58 7)).getLast? = some (List.replicate 58 7)
  ∧ (255 : Nat) ≠ (List.replicate 58 7).length := by decide

/-- Claim C1, amended: for every non-empty payload both chunked senders
emit at least one chunk; every chunk except the last carries marker 255;
the last chunk carries its literal data length as marker exactly when that
length is below the chunk width (58 for send_large_message, 57 for
send_large_message2), and carries marker 255 when it exactly fills the
width, which happens when the payload length is a positive multiple of
the width. -/
theorem large_message_markers (p : List Nat) (hp : p ≠ []) :
    chunksLarge p ≠ [] ∧ chunksLarge2 p ≠ []
  ∧ (∀ m ∈ ((chunksLarge p).map largeMarker).dropLast, m = 255)
  ∧ (∀ c ∈ (chunksLarge p).getLast?,
      0 < c.length ∧ c.length ≤ 58
      ∧ (c.length < 58 → largeMarker c = c.length ∧ largeMarker c < 255)
      ∧ (c.length = 58 → largeMarker c = 255))
  ∧ (∀ m ∈ ((chunksLarge2 p).map largeMarker2).dropLast, m = 255)
  ∧ (∀ c ∈ (chunksLarge2 p).getLast?,
      0 < c.length ∧ c.length ≤ 57
      ∧ (c.length < 57 → largeMarker2 c = c.length ∧ largeMarker2 c < 255)
      ∧ (c.length = 57 → largeMarker2 c = 255)) := by
  refine ⟨?_, ?_, ?_, ?_, ?_, ?_⟩
  · rw [chunksLarge_eq]; exact chunkRec_ne_nil 57 p hp
  · rw [chunksLarge2_eq]; exact chunkRec_ne_nil 56 p hp
  · intro m hm
    rw [chunksLarge_eq, dropLast_map_comm] at hm
    obtain ⟨c, hc, rfl⟩ := List.mem_map.mp hm
    have hlen := chunkRec_dropLast_len 57 p c hc
    simp [largeMarker, hlen]
  · intro c hc
    rw [Option.mem_def] at hc
    have hmem : c ∈ chunksLarge p := mem_of_getLastEq hc
    rw [chunksLarge_eq] at hmem
    have hb := chunkRec_mem_len 57 p c hmem
    refine ⟨hb.1, hb.2, ?_, ?_⟩
    · intro hlt
      constructor
      · simp [largeMarker, hlt]
      · simp only [largeMarker, if_pos hlt]; omega
    · intro heq
      simp [largeMarker, heq]
  · intro m hm
    rw [chunksLarge2_eq, dropLast_map_comm] at hm
    obtain ⟨c, hc, rfl⟩ := List.mem_map.mp hm
    have hlen := chunkRec_dropLast_len 56 p c hc
    simp [largeMarker2, hlen]
  · intro c hc
    rw [Option.mem_def] at hc
    have hmem : c ∈ chunksLarge2 p := mem_of_getLastEq hc
    rw [chunksLarge2_eq] at hmem
    have hb := chunkRec_mem_len 56 p c hmem
    refine ⟨hb.1, hb.2, ?_, ?_⟩
    · intro hlt
      constructor
      · simp [largeMarker2, hlt]
      · simp only [largeMarker2, if_pos hlt]; omega
    · intro heq
      simp [largeMarker2, heq]

/-- Witness for the amended claim C1 at the 59-byte payload of threes. -/
theorem large_message_markers_w :
    (List.replicate 59 3 ≠ ([] : List Nat))
  ∧ (chunksLarge (List.replicate 59 3) ≠ [] ∧ chunksLarge2 (List.replicate 59 3) ≠ []
    ∧ (∀ m ∈ ((chunksLarge (List.replicate 59 3)).map largeMarker).dropLast, m = 255)
    ∧ (∀ c ∈ (chunksLarge (List.replicate 59 3)).getLast?,
        0 < c.length ∧ c.length ≤ 58
        ∧ (c.length < 58 → largeMarker c = c.length ∧ largeMarker c < 255)
        ∧ (c.length = 58 → largeMarker c = 255))
    ∧ (∀ m ∈ ((chunksLarge2 (List.replicate 59 3)).map largeMarker2).dropLast, m = 255)
    ∧ (∀ c ∈ (chunksLarge2 (List.replicate 59 3)).getLast?,
        0 < c.length ∧ c.length ≤ 57
        ∧ (c.length < 57 → largeMarker2 c = c.length ∧ largeMarker2 c < 255)
        ∧ (c.length = 57 → largeMarker2 c = 255))) :=
  ⟨by decide, large_message_markers (List.replicate 59 3) (by decide)⟩

/-- Claim C2: for every payload longer than the single-report capacity of
58 bytes, both chunked senders reproduce the payload on concatenation of
the chunk data in emission order, and the chunk counts are the ceilings
of the length over 58 and over 57 respectively. -/
theorem chunked_roundtrip_count (p : List Nat) (_h : 58 < p.length) :
    (chunksLarge p).flatten = p
  ∧ (chunksLarge p).length = (p.length + 57) / 58
  ∧ (chunksLarge2 p).flatten = p
  ∧ (chunksLarge2 p).length = (p.length + 56) / 57 := by
  rw [chunksLarge_eq, chunksLarge2_eq]
  refine ⟨chunkRec_join 57 p, ?_, chunkRec_join 56 p, ?_⟩
  · rw [chunkRec_length]
  · rw [chunkRec_length]

/-- Witness for claim C2 at the 60-element payload of range 60. -/
theorem chunked_roundtrip_count_w :
    58 < (List.range 60).length
  ∧ ((chunksLarge (List.range 60)).flatten = List.range 60
    ∧ (chunksLarge (List.range 60)).length = ((List.range 60).length + 57) / 58
    ∧ (chunksLarge2 (List.range 60)).flatten = List.range 60
    ∧ (chunksLarge2 (List.range 60)).length = ((List.range 60).length + 56) / 57) :=
  ⟨by decide, chunked_roundtrip_count (List.range 60) (by decide)⟩

/-- Claim C3, counterexample: send_large_message produces a chunk of 58
data bytes, exceeding the claimed bound MAX_LARGE_PAYLOAD_SIZE - 1 = 57
for its single marker byte. -/
theorem chunk_capacity_cex :
    ¬ (∀ c ∈ chunksLarge (List.replicate 58 7),
        c.length ≤ MAX_LARGE_PAYLOAD_SIZE - 1) := by decide

/-- Claim C3, amended: each chunk of send_large_message holds at most
MAX_LARGE_PAYLOAD_SIZE = 58 data bytes and each chunk of
send_large_message2 holds at most MAX_LARGE_PAYLOAD_SIZE - 1 = 57 data
bytes; that is, the bound is MAX_LARGE_PAYLOAD_SIZE - (k - 1) where k is
the number of marker bytes of the variant, because the constant 58
already accounts for one marker byte. -/
theorem chunk_capacity_bound (p : List Nat) :
    (∀ c ∈ chunksLarge p, c.length ≤ MAX_LARGE_PAYLOAD_SIZE)
  ∧ (∀ c ∈ chunksLarge2 p, c.length ≤ MAX_LARGE_PAYLOAD_SIZE - 1) := by
  constructor
  · intro c hc
    obtain ⟨x, _, rfl⟩ := List.mem_map.mp hc
    simp only [List.length_take, List.length_drop, MAX_LARGE_PAYLOAD_SIZE]
    omega
  · intro c hc
    obtain ⟨x, _, rfl⟩ := List.mem_map.mp hc
    simp only [List.length_take, List.length_drop, MAX_LARGE_PAYLOAD_SIZE]
    omega

/-- Witness for the amended claim C3 at the 59-byte zero payload and its
first chunk. -/
theorem chunk_capacity_bound_w :
    List.replicate 58 (0 : Nat) ∈ chunksLarge (List.replicate 59 0)
  ∧ (List.replicate 58 (0 : Nat)).length ≤ MAX_LARGE_PAYLOAD_SIZE :=
  ⟨by decide, (chunk_capacity_bound (List.replicate 59 0)).1
    (List.replicate 58 0) (by decide)⟩

/-- Claim C4: whenever the payload resolves to a byte sequence and the
unpadded concatenation of header, optional tags and payload fits in the
fixed report, send_message produces a report of exactly the platform
report size, beginning with that concatenation and ending in zero bytes. -/
theorem send_message_report (plat : Platform) (msg slot_id message_field : Option Nat)
    (payload : PyPayload) (pb : List Nat)
    (hpb : (if pyTruthy payload then payloadBytes payload else Except.ok []) = Except.ok pb)
    (hfit : (reportContent plat msg slot_id message_field pb).length ≤ plat.reportSize) :
    ∃ r, send_message plat msg slot_id message_field payload = Except.ok r
      ∧ r.length = plat.reportSize
      ∧ r.take (reportContent plat msg slot_id message_field pb).length
          = reportContent plat msg slot_id message_field pb
      ∧ r.drop (reportContent plat msg slot_id message_field pb).length
          = List.replicate
              (plat.reportSize - (reportContent plat msg slot_id message_field pb).length)
              0 := by
  refine ⟨padTo (reportContent plat msg slot_id message_field pb) plat.reportSize,
    ?_, ?_, ?_, ?_⟩
  · rw [send_message, hpb]
  · simp only [padTo, List.length_append, List.length_replicate]
    omega
  · exact List.take_left _ _
  · exact List.drop_left _ _

/-- Witness for claim C4: a set-slot style report on the 64-byte platform
with message tag 230, slot 12, field 8 and a three-byte payload. -/
theorem send_message_report_w :
    (if pyTruthy (.pyBytes [117, 50, 102]) then payloadBytes (.pyBytes [117, 50, 102])
      else Except.ok []) = Except.ok [117, 50, 102]
  ∧ (reportContent posixPlatform (some 230) (some 12) (some 8) [117, 50, 102]).length
      ≤ posixPlatform.reportSize
  ∧ (∃ r, send_message posixPlatform (some 230) (some 12) (some 8)
        (.pyBytes [117, 50, 102]) = Except.ok r
      ∧ r.length = posixPlatform.reportSize
      ∧ r.take (reportContent posixPlatform (some 230) (some 12) (some 8)
          [117, 50, 102]).length
          = reportContent posixPlatform (some 230) (some 12) (some 8) [117, 50, 102]
      ∧ r.drop (reportContent posixPlatform (some 230) (some 12) (some 8)
          [117, 50, 102]).length
          = List.replicate
              (posixPlatform.reportSize
                - (reportContent posixPlatform (some 230) (some 12) (some 8)
                    [117, 50, 102]).length)
              0) :=
  ⟨rfl, by decide,
    send_message_report posixPlatform (some 230) (some 12) (some 8)
      (.pyBytes [117, 50, 102]) [117, 50, 102] rfl (by decide)⟩

/-- Claim C5, code bug evidence: send_message has no size guard, so a
60-byte payload together with a message tag yields a 65-byte report on
the 64-byte platform, returned for transmission without any error. -/
theorem send_message_oversized :
    send_message posixPlatform (some 230) none none (.pyBytes (List.replicate 60 1))
      = Except.ok ([255, 255, 255, 255] ++ 230 :: List.replicate 60 1)
  ∧ ([255, 255, 255, 255] ++ 230 :: List.replicate 60 1).length = 65
  ∧ posixPlatform.reportSize
      < ([255, 255, 255, 255] ++ 230 :: List.replicate 60 1).length :=
  ⟨rfl, by decide, by decide⟩

/-- Claim C10: send_message treats falsy arguments as absent, so slot id
0, the integer payload 0, and empty bytes, string or list payloads all
produce a report byte-for-byte identical to the report built with the
argument omitted. -/
theorem send_message_falsy (plat : Platform) (msg message_field slot_id : Option Nat)
    (payload : PyPayload) :
    send_message plat msg (some 0) message_field payload
      = send_message plat msg none message_field payload
  ∧ send_message plat msg slot_id message_field (.pyInt 0)
      = send_message plat msg slot_id message_field .pyNone
  ∧ send_message plat msg slot_id message_field (.pyBytes [])
      = send_message plat msg slot_id message_field .pyNone
  ∧ send_message plat msg slot_id message_field (.pyStr "")
      = send_message plat msg slot_id message_field .pyNone
  ∧ send_message plat msg slot_id message_field (.pyList [])
      = send_message plat msg slot_id message_field .pyNone :=
  ⟨rfl, rfl, rfl, rfl, rfl⟩

/-- A retry loop of sign stops at its first read when that read holds 32
raw bytes, because the source compares the length of the hex string with
64. -/
theorem readSeg10_hit (r : List Nat) (tr : List (List Nat)) (hr : 2 * r.length = 64) :
    readSeg 10 (r :: tr) = (r, tr) := by
  show readSeg (9 + 1) (r :: tr) = (r, tr)
  simp only [readSeg, List.headD_cons, List.tail_cons]
  simp [hr]

/-- Claim C6, counterexample: on the nominal response of eight full
64-byte reports sign fails, because the break condition tests the hex
string length against 64 and therefore never fires on a 64-byte read, so
the part-2 retry loop drains the whole response and ends on an empty
read; and decrypt, given a response whose second segment never arrives,
succeeds with the single first read instead of failing. -/
theorem sign_decrypt_read_cex :
    sign_read (List.replicate 8 (List.replicate 64 1))
      = some (Except.error "failed to read signature from OnlyKey")
  ∧ decrypt_read [List.replicate 64 1] = some (Except.ok (List.replicate 64 1)) :=
  ⟨rfl, rfl⟩

/-- Claim C6, amended: for a response of eight parts of 32 raw bytes each
(64 hex digits, the only size on which the break condition of the source
fires), sign reassembles all eight parts in read order into a 256-byte
result; decrypt performs no multi-part reassembly and returns the first
non-empty read alone, and cannot raise a read failure. -/
theorem sign_read_parts (t1 t2 t3 t4 t5 t6 t7 t8 : List Nat)
    (h1 : t1.length = 32) (h2 : t2.length = 32) (h3 : t3.length = 32)
    (h4 : t4.length = 32) (h5 : t5.length = 32) (h6 : t6.length = 32)
    (h7 : t7.length = 32) (h8 : t8.length = 32) :
    sign_read [t1, t2, t3, t4, t5, t6, t7, t8]
      = some (Except.ok (t1 ++ t2 ++ t3 ++ t4 ++ t5 ++ t6 ++ t7 ++ t8))
  ∧ (t1 ++ t2 ++ t3 ++ t4 ++ t5 ++ t6 ++ t7 ++ t8).length = 8 * 32
  ∧ decrypt_read [t1, t2, t3, t4, t5, t6, t7, t8] = some (Except.ok t1) := by
  have e1 : t1 ≠ [] := by intro hh; rw [hh] at h1; simp at h1
  have e2 : t2 ≠ [] := by intro hh; rw [hh] at h2; simp at h2
  have hrf : readFirst [t1, t2, t3, t4, t5, t6, t7, t8]
      = some (t1, [t2, t3, t4, t5, t6, t7, t8]) := by
    simp [readFirst, e1]
  refine ⟨?_, ?_, ?_⟩
  · simp only [sign_read, hrf,
      readSeg10_hit t2 [t3, t4, t5, t6, t7, t8] (by rw [h2]),
      readSeg10_hit t3 [t4, t5, t6, t7, t8] (by rw [h3]),
      readSeg10_hit t4 [t5, t6, t7, t8] (by rw [h4]),
      readSeg10_hit t5 [t6, t7, t8] (by rw [h5]),
      readSeg10_hit t6 [t7, t8] (by rw [h6]),
      readSeg10_hit t7 [t8] (by rw [h7]),
      readSeg10_hit t8 [] (by rw [h8])]
    simp [e2]
  · simp [h1, h2, h3, h4, h5, h6, h7, h8]
  · simp [decrypt_read, hrf]

/-- Witness for the amended claim C6 at eight concrete 32-byte parts. -/
theorem sign_read_parts_w :
    sign_read [List.replicate 32 1, List.replicate 32 2, List.replicate 32 3,
        List.replicate 32 4, List.replicate 32 5, List.replicate 32 6,
        List.replicate 32 7, List.replicate 32 8]
      = some (Except.ok (List.replicate 32 1 ++ List.replicate 32 2
          ++ List.replicate 32 3 ++ List.replicate 32 4 ++ List.replicate 32 5
          ++ List.replicate 32 6 ++ List.replicate 32 7 ++ List.replicate 32 8))
  ∧ (List.replicate 32 1 ++ List.replicate 32 2 ++ List.replicate 32 3
      ++ List.replicate 32 4 ++ List.replicate 32 5 ++ List.replicate 32 6
      ++ List.replicate 32 7 ++ (List.replicate 32 8 : List Nat)).length = 8 * 32
  ∧ decrypt_read [List.replicate 32 1, List.replicate 32 2, List.replicate 32 3,
        List.replicate 32 4, List.replicate 32 5, List.replicate 32 6,
        List.replicate 32 7, List.replicate 32 8]
      = some (Except.ok (List.replicate 32 1)) :=
  sign_read_parts (List.replicate 32 1) (List.replicate 32 2) (List.replicate 32 3)
    (List.replicate 32 4) (List.replicate 32 5) (List.replicate 32 6)
    (List.replicate 32 7) (List.replicate 32 8) rfl rfl rfl rfl rfl rfl rfl rfl

/-- Claim C7, code bug evidence: the source applies ord to a byte of the
digest, but indexing a Python 3 bytes object yields an int, and ord on an
int raises TypeError, so challenge derivation raises for every payload
instead of returning three buttons in 1..5.  The rest of the file is
Python 3 (it frames with the bytes constructor over integer lists and
reads hex with bytes.hex), so the ord call is a Python 2 leftover. -/
theorem derive_buttons_raises (d : List Nat) :
    derive_buttons d
      = Except.error "TypeError: ord() expected string of length 1, but int found" := rfl

/-- The retry loop of __init__ when every attempt raises: each of the n
remaining tries fails, sleeps once, and the loop ends with the raise e
after it, which hits the deleted except variable and raises
UnboundLocalError. -/
theorem okInitGo_fail (env : Nat → Except Unit (List DeviceInfo))
    (hfail : ∀ k, env k = Except.error ()) :
    ∀ n k, okInitGo env n k = ⟨.error "UnboundLocalError", k + n, k + n⟩ := by
  intro n
  induction n with
  | zero => intro k; simp [okInitGo]
  | succ m ih =>
    intro k
    simp only [okInitGo, hfail k, connectOnce]
    rw [ih (k + 1)]
    have e : k + 1 + m = k + (m + 1) := by omega
    rw [e]

/-- Claim C8, counterexample: with enumeration always succeeding but
returning no devices, a matching device is never found, yet __init__
returns after a single attempt with no sleep and no error, because
_connect only raises when enumeration or open itself raises. -/
theorem connect_absent_cex :
    okInit (fun _ => Except.ok ([] : List DeviceInfo)) = ⟨Except.ok none, 1, 0⟩ := rfl

/-- Claim C8, amended: when every attempt raises inside _connect, __init__
makes exactly 5 attempts with a 1.5 second sleep after each failure (5
sleeps, hence at least 4 times 1.5 seconds elapse between first and last
attempt), but what then surfaces is not the OnlyKeyUnavailableException
caught during the attempts: the raise e after the while loop refers to
the except-clause variable that Python 3 has deleted, so the exhaustion
path raises UnboundLocalError; and when enumeration succeeds and simply
finds no matching device, __init__ returns successfully after a single
attempt with no sleeps, no error and no device handle. -/
theorem connect_retry (env env2 : Nat → Except Unit (List DeviceInfo))
    (hfail : ∀ k, env k = Except.error ())
    (habsent : ∃ devs, env2 0 = Except.ok devs ∧ devs.foldl matchStep none = none) :
    okInit env = ⟨Except.error "UnboundLocalError", 5, 5⟩
  ∧ okInit env2 = ⟨Except.ok none, 1, 0⟩ := by
  obtain ⟨devs, he, hm⟩ := habsent
  constructor
  · have h := okInitGo_fail env hfail 5 0
    simpa [okInit] using h
  · show okInitGo env2 (4 + 1) 0 = _
    simp only [okInitGo, connectOnce, he, hm]

/-- Witness for the amended claim C8: always-raising enumeration on one
hand, empty enumeration on the other. -/
theorem connect_retry_w :
    okInit (fun _ => Except.error ())
      = ⟨Except.error "UnboundLocalError", 5, 5⟩
  ∧ okInit (fun _ => Except.ok ([] : List DeviceInfo)) = ⟨Except.ok none, 1, 0⟩ :=
  connect_retry (fun _ => Except.error ()) (fun _ => Except.ok [])
    (fun _ => rfl) ⟨[], rfl, rfl⟩

/-- Claim C9: slot 29 is named ECC Key 1 and slot 7 is named 1b; slot 61
is absent from the table, and constructing a Slot for it fails, but with
the bare KeyError of the unguarded dictionary lookup, not with a defined
UnknownSlot error, which does not exist in the source. -/
theorem slot_lookup :
    slotName 29 = some "ECC Key 1"
  ∧ slotName 7 = some "1b"
  ∧ slotName 61 = none
  ∧ slotNew 61 "" = Except.error "KeyError"
  ∧ slotNew 29 "test" = Except.ok ⟨29, "test", "ECC Key 1"⟩ :=
  ⟨rfl, rfl, rfl, rfl, rfl⟩

end OnlyKeyClient
